import Mathlib

/-!
# Verification of the Kapacitor UDF indicator stream handler

Shallow embedding of `src/handler/indicator_handler.rs`: a streaming
EMA/SMA indicator handler keyed by ticker, with JSON snapshot/restore
persistence and an outbound response channel.

Modelling conventions:
* Rust `f64` values are modelled as `ℚ` (exact arithmetic; the claims under
  study are about the algebraic structure of the computation).
* `HashMap<String, _>` is modelled as an association list with in-place
  update semantics (`lookupState` / `setState`, `lookupAssoc` / `insertAssoc`).
* The `async_std` response channel is modelled by a `channelOpen` flag plus
  the list of emitted points; `send` succeeds exactly when the channel is
  open (a closed channel makes `send` return an error, as in `async_std`).
* `serde_json` values are modelled by the `Json` inductive; the codec
  (`encodeData` / `decodeData`) is modelled from the spec (§4.4
  PersistenceCodec: self-describing encoding of the full state table),
  since the actual codec lives in the external `serde_json` crate.
-/

namespace IndicatorUDF

/-- Indicator variants, from `src/handler/config.rs` (declared there; the file
is not part of the provided sources — shape fixed by its use in
`indicator_handler.rs` and by spec §3). -/
inductive IndicatorType where
  | EMA
  | SMA
deriving DecidableEq, Repr

/-- Configuration options (spec §3; `IndicatorOptions` of `config.rs`, shape
fixed by its use in `indicator_handler.rs`). -/
structure IndicatorOptions where
  period : Nat
  indicator_type : IndicatorType
  ticker_field : String
  field : String
  as_field : String
deriving DecidableEq, Repr

/-- Per-key rolling state (spec §3; `IndicatorState` of `config.rs`, shape
fixed by its use in `indicator_handler.rs`): optional EMA accumulator, SMA
sliding window, observation count. -/
structure IndicatorState where
  current_value : Option ℚ
  values : List ℚ
  count : Nat
deriving DecidableEq, Repr

/-- The zero-value inserted by `entry(..).or_insert(IndicatorState { current_value:
None, values: Vec::new(), count: 0 })`. -/
instance : Inhabited IndicatorState :=
  ⟨{ current_value := none, values := [], count := 0 }⟩

/-- `HashMap<String, IndicatorState>` (the field `states` of `IndicatorData`). -/
abbrev StateTable := List (String × IndicatorState)

/-- Map lookup. -/
def lookupState : StateTable → String → Option IndicatorState
  | [], _ => none
  | (k, s) :: rest, key => if k = key then some s else lookupState rest key

/-- Map insert/update: replaces the entry for `key` in place, appends when
absent (the net effect of `entry(key).or_insert(default)` followed by
in-place mutation of the entry). -/
def setState : StateTable → String → IndicatorState → StateTable
  | [], key, s => [(key, s)]
  | (k, s0) :: rest, key, s =>
      if k = key then (k, s) :: rest else (k, s0) :: setState rest key s

/-- `state.values.push(value)` then `if len > period { remove(0) }`
(`remove(0)` drops the oldest entry; `push` appends the newest). -/
def smaWindow (period : Nat) (w : List ℚ) (value : ℚ) : List ℚ :=
  if period < (w ++ [value]).length then (w ++ [value]).tail else w ++ [value]

/-- `if state.values.len() == period { sum / period } else { value }`, applied
to the post-eviction window. -/
def smaOut (period : Nat) (w : List ℚ) (value : ℚ) : ℚ :=
  if w.length = period then w.sum / (period : ℚ) else value

/-- `alpha = 2.0 / (period + 1.0)`. -/
def emaAlpha (period : Nat) : ℚ := 2 / ((period : ℚ) + 1)

/-- `match current_value { Some(ema) => alpha*value + (1-alpha)*ema, None => value }`. -/
def emaNext (period : Nat) (cv : Option ℚ) (value : ℚ) : ℚ :=
  match cv with
  | some ema => emaAlpha period * value + (1 - emaAlpha period) * ema
  | none => value

/-- `IndicatorHandler::calculate_ema`: reads (or lazily creates) the key's
state, computes the new EMA, stores it as `current_value`, bumps `count`,
returns the new EMA. -/
def calculate_ema (opts : IndicatorOptions) (t : StateTable) (ticker : String)
    (value : ℚ) : ℚ × StateTable :=
  let st := (lookupState t ticker).getD default
  let newEma := emaNext opts.period st.current_value value
  (newEma,
   setState t ticker
     { st with current_value := some newEma, count := st.count + 1 })

/-- `IndicatorHandler::calculate_sma`: push, evict the oldest once the window
exceeds `period`, bump `count`, output the mean once the window length equals
`period` and the raw input otherwise. -/
def calculate_sma (opts : IndicatorOptions) (t : StateTable) (ticker : String)
    (value : ℚ) : ℚ × StateTable :=
  let st := (lookupState t ticker).getD default
  let w := smaWindow opts.period st.values value
  (smaOut opts.period w value,
   setState t ticker { st with values := w, count := st.count + 1 })

/-- `IndicatorHandler::calculate_indicator`: enum dispatch (the `println!`
logging is I/O only and not modelled). -/
def calculate_indicator (opts : IndicatorOptions) (t : StateTable)
    (ticker : String) (value : ℚ) : ℚ × StateTable :=
  match opts.indicator_type with
  | .EMA => calculate_ema opts t ticker value
  | .SMA => calculate_sma opts t ticker value

/-- The error variants of `IndicatorError` used on the point path. -/
inductive IndicatorError where
  | ResponseSendError (msg : String)
  | InvalidFieldType (fieldName : String)
  | MissingTickerField (fieldName : String)
deriving DecidableEq, Repr

/-- A decoded record (`kapacitor_udf::proto::Point`): tag map, numeric field
map, plus the pass-through components the handler never touches. -/
structure Point where
  name : String
  time : Int
  group : String
  tags : List (String × String)
  fields_double : List (String × ℚ)
  fields_int : List (String × Int)
  fields_string : List (String × String)
deriving DecidableEq, Repr

/-- `HashMap::get`. -/
def lookupAssoc {α : Type} : List (String × α) → String → Option α
  | [], _ => none
  | (k, a) :: rest, key => if k = key then some a else lookupAssoc rest key

/-- `HashMap::insert`: overwrite in place when the key exists, append when
absent. -/
def insertAssoc {α : Type} : List (String × α) → String → α → List (String × α)
  | [], key, a => [(key, a)]
  | (k, a0) :: rest, key, a =>
      if k = key then (k, a) :: rest else (k, a0) :: insertAssoc rest key a

/-- JSON values (`serde_json::Value`, restricted to what the state encoding
uses). -/
inductive Json where
  | null
  | num (q : ℚ)
  | str (s : String)
  | arr (elems : List Json)
  | obj (members : List (String × Json))

/-- Modelled from the spec: PersistenceCodec §4.4 — the actual encoder is
`serde_json::to_vec(&IndicatorData)`, which lives in the external
`serde_json` crate; modelled as a self-describing JSON encoding of the
state table. Encoding of one `IndicatorState`. -/
def encodeState (s : IndicatorState) : Json :=
  .obj [("current_value", match s.current_value with
           | none => .null
           | some q => .num q),
        ("values", .arr (s.values.map Json.num)),
        ("count", .num (s.count : ℚ))]

/-- Modelled from the spec: PersistenceCodec §4.4. Encoding of
`IndicatorData { states }`. -/
def encodeData (t : StateTable) : Json :=
  .obj [("states", .obj (t.map (fun kv => (kv.1, encodeState kv.2))))]

/-- Decoder for an optional float (`current_value`). -/
def decodeValue : Json → Except String (Option ℚ)
  | .null => .ok none
  | .num q => .ok (some q)
  | _ => .error "invalid current_value"

/-- Decoder for a float array (`values`). -/
def decodeNums : List Json → Except String (List ℚ)
  | [] => .ok []
  | .num q :: rest =>
      match decodeNums rest with
      | .ok qs => .ok (q :: qs)
      | .error e => .error e
  | _ :: _ => .error "invalid number in values"

/-- Decoder for a non-negative integer count. -/
def decodeCount : Json → Except String Nat
  | .num q => if q.den = 1 ∧ 0 ≤ q.num then .ok q.num.toNat
              else .error "invalid count"
  | _ => .error "invalid count"

/-- Modelled from the spec: PersistenceCodec §4.4, decoder side
(`serde_json::from_slice`). Decoding of one `IndicatorState`. -/
def decodeState : Json → Except String IndicatorState
  | .obj [("current_value", cv), ("values", .arr vs), ("count", c)] =>
      match decodeValue cv, decodeNums vs, decodeCount c with
      | .ok v, .ok qs, .ok n => .ok { current_value := v, values := qs, count := n }
      | .error e, _, _ => .error e
      | _, .error e, _ => .error e
      | _, _, .error e => .error e
  | _ => .error "invalid state"

/-- Decoding of the `states` map, entry by entry. -/
def decodeEntries : List (String × Json) → Except String StateTable
  | [] => .ok []
  | (k, j) :: rest =>
      match decodeState j, decodeEntries rest with
      | .ok s, .ok t => .ok ((k, s) :: t)
      | .error e, _ => .error e
      | _, .error e => .error e

/-- Modelled from the spec: PersistenceCodec §4.4. Decoding of
`IndicatorData`. -/
def decodeData : Json → Except String StateTable
  | .obj [("states", .obj kvs)] => decodeEntries kvs
  | _ => .error "invalid data"

/-- `InitResponse { success, error }`. -/
structure InitResponse where
  success : Bool
  error : String
deriving DecidableEq, Repr

/-- `RestoreResponse { success, error }`. -/
structure RestoreResponse where
  success : Bool
  error : String
deriving DecidableEq, Repr

/-- The raw option map delivered by the host (spec §6: recognized keys
`period`, `type`, `ticker_field`, `field`, `as_field`). -/
structure RawOptions where
  period : Int
  type_name : String
  ticker_field : String
  field : String
  as_field : String
deriving DecidableEq, Repr

/-- Modelled from the spec: `IndicatorOptions::from_proto_options` lives in
`src/handler/config.rs`, which is not among the provided sources. Spec §4.1
ConfigResolver: "Validates field names are non-empty, period is a positive
integer, and indicator type matches one of the known variants"; pure. -/
def from_proto_options (r : RawOptions) : Except String IndicatorOptions :=
  if r.period ≤ 0 then .error "period must be a positive integer"
  else if r.ticker_field = "" then .error "ticker_field must be non-empty"
  else if r.field = "" then .error "field must be non-empty"
  else if r.as_field = "" then .error "as_field must be non-empty"
  else match r.type_name with
    | "EMA" => .ok { period := r.period.toNat, indicator_type := .EMA,
                     ticker_field := r.ticker_field, field := r.field,
                     as_field := r.as_field }
    | "SMA" => .ok { period := r.period.toNat, indicator_type := .SMA,
                     ticker_field := r.ticker_field, field := r.field,
                     as_field := r.as_field }
    | _ => .error "unknown indicator type"

/-- The handler: options, keyed state table (`data.states`), and the response
channel modelled as an open/closed flag plus the emitted points. -/
structure IndicatorHandler where
  options : IndicatorOptions
  states : StateTable
  channelOpen : Bool
  emitted : List Point
deriving DecidableEq, Repr

/-- `Handler::init`: on resolution success, swap in the options and clear the
state table; on failure, leave both and report the reason. -/
def initHandler (h : IndicatorHandler) (r : RawOptions) :
    IndicatorHandler × InitResponse :=
  match from_proto_options r with
  | .ok opts =>
      ({ h with options := opts, states := [] },
       { success := true, error := "" })
  | .error e => (h, { success := false, error := e })

/-- `Handler::snapshot`: serialize `data` (read-only). -/
def snapshotHandler (h : IndicatorHandler) : Json :=
  encodeData h.states

/-- `Handler::restore`: on decode success replace `data` wholesale; on
failure leave it and report the reason. -/
def restoreHandler (h : IndicatorHandler) (blob : Json) :
    IndicatorHandler × RestoreResponse :=
  match decodeData blob with
  | .ok d => ({ h with states := d }, { success := true, error := "" })
  | .error e => (h, { success := false, error := e })

/-- `Handler::stop`: closes the response channel (and nothing else). -/
def stopHandler (h : IndicatorHandler) : IndicatorHandler :=
  { h with channelOpen := false }

/-- `let mut new_point = p.clone(); new_point.fields_double.insert(as_field,
indicator_value)`. -/
def augmentedPoint (h : IndicatorHandler) (p : Point) (iv : ℚ) : Point :=
  { p with fields_double := insertAssoc p.fields_double h.options.as_field iv }

/-- `Handler::point`: extract the ticker tag (else `MissingTickerField`),
extract the double field (else `InvalidFieldType`), compute the indicator
(mutating the state table), augment a clone of the point under `as_field`,
and send it (a send on a closed channel fails with `ResponseSendError`,
after the state mutation has already happened). -/
def pointHandler (h : IndicatorHandler) (p : Point) :
    IndicatorHandler × Except IndicatorError Unit :=
  match lookupAssoc p.tags h.options.ticker_field with
  | none => (h, .error (.MissingTickerField h.options.ticker_field))
  | some ticker =>
    match lookupAssoc p.fields_double h.options.field with
    | none => (h, .error (.InvalidFieldType h.options.field))
    | some value =>
      let r := calculate_indicator h.options h.states ticker value
      if h.channelOpen then
        ({ h with states := r.2, emitted := h.emitted ++ [augmentedPoint h p r.1] }, .ok ())
      else
        ({ h with states := r.2 }, .error (.ResponseSendError "channel closed"))

/-- `true` iff an `Except` result is `ok`. -/
def exceptIsOk : Except IndicatorError Unit → Bool
  | .ok _ => true
  | .error _ => false

/-- Fold a sequence of SMA observations for one key into the table. -/
def smaFold (opts : IndicatorOptions) (t : StateTable) (k : String) :
    List ℚ → StateTable
  | [] => t
  | v :: vs => smaFold opts (calculate_sma opts t k v).2 k vs

/-- The outputs of a sequence of SMA observations for one key. -/
def smaOutputs (opts : IndicatorOptions) (t : StateTable) (k : String) :
    List ℚ → List ℚ
  | [] => []
  | v :: vs =>
      (calculate_sma opts t k v).1 ::
        smaOutputs opts (calculate_sma opts t k v).2 k vs

/-- Spec §3 invariant: every key's window is bounded by the period. -/
def WindowInv (p : Nat) (t : StateTable) : Prop :=
  ∀ kv ∈ t, (Prod.snd kv).values.length ≤ p

instance (p : Nat) (t : StateTable) : Decidable (WindowInv p t) := by
  unfold WindowInv; infer_instance

/-- SMA options over ticker tag `"t"`, input field `"price"`, output field
`"sma"` (the configuration of spec §8 property 10). -/
def smaOpts (p : Nat) : IndicatorOptions :=
  { period := p, indicator_type := .SMA, ticker_field := "t",
    field := "price", as_field := "sma" }

/-- EMA options over ticker tag `"t"`, input field `"price"`, output field
`"ema"`. -/
def emaOpts (p : Nat) : IndicatorOptions :=
  { period := p, indicator_type := .EMA, ticker_field := "t",
    field := "price", as_field := "ema" }

/-- A freshly constructed handler (`IndicatorHandler::new`): empty state
table, open channel, nothing emitted. -/
def freshHandler (opts : IndicatorOptions) : IndicatorHandler :=
  { options := opts, states := [], channelOpen := true, emitted := [] }

/-- A concrete record carrying ticker tag `"t"` and double field `"price"`. -/
def mkPoint (tick : String) (price : ℚ) : Point :=
  { name := "m", time := 0, group := "", tags := [("t", tick)],
    fields_double := [("price", price)], fields_int := [], fields_string := [] }

/-- The handler of spec §8 property 10 after ingesting `price = 1, 2, 3` for
ticker `"X"` under SMA with period 3. -/
def sampleHandler3 : IndicatorHandler :=
  (pointHandler (pointHandler (pointHandler (freshHandler (smaOpts 3))
    (mkPoint "X" 1)).1 (mkPoint "X" 2)).1 (mkPoint "X" 3)).1

/-- Snapshot of `sampleHandler3`, restored after reconfiguring to period 1:
the scenario exercising restore against a smaller period. -/
def restoredAfterReconfig : IndicatorHandler × RestoreResponse :=
  restoreHandler
    (initHandler sampleHandler3
      { period := 1, type_name := "SMA", ticker_field := "t",
        field := "price", as_field := "sma" }).1
    (snapshotHandler sampleHandler3)

/-- A valid raw configuration: period 3, SMA. -/
def rawSma3 : RawOptions :=
  { period := 3, type_name := "SMA", ticker_field := "t",
    field := "price", as_field := "sma" }

/-- An invalid raw configuration: period 0 must be rejected. -/
def rawBadPeriod : RawOptions :=
  { period := 0, type_name := "SMA", ticker_field := "t",
    field := "price", as_field := "sma" }

/-- A record lacking the ticker tag `"t"`. -/
def noTagPoint : Point :=
  { name := "m", time := 0, group := "", tags := [],
    fields_double := [("price", 1)], fields_int := [], fields_string := [] }

/-- A record carrying the ticker tag but no `"price"` double field. -/
def noFieldPoint : Point :=
  { name := "m", time := 0, group := "", tags := [("t", "X")],
    fields_double := [], fields_int := [], fields_string := [] }

/-- Options whose output field collides with the input field
(`as_field = field = "price"`), which validation does not forbid. -/
def collideOpts : IndicatorOptions :=
  { period := 3, indicator_type := .EMA, ticker_field := "t",
    field := "price", as_field := "price" }

/-! ## Lemmas about the state table -/

theorem default_state :
    (default : IndicatorState) =
      { current_value := none, values := [], count := 0 } := rfl

theorem lookupState_setState_self (t : StateTable) (k : String)
    (s : IndicatorState) : lookupState (setState t k s) k = some s := by
  induction t with
  | nil => simp [setState, lookupState]
  | cons kv rest ih =>
      obtain ⟨k0, s0⟩ := kv
      by_cases h : k0 = k <;> simp [setState, lookupState, h, ih]

theorem lookupState_mem {t : StateTable} {k : String} {s : IndicatorState}
    (h : lookupState t k = some s) : (k, s) ∈ t := by
  induction t with
  | nil => simp [lookupState] at h
  | cons kv rest ih =>
      obtain ⟨k0, s0⟩ := kv
      by_cases hk : k0 = k
      · subst hk
        simp [lookupState] at h
        simp [h]
      · simp [lookupState, hk] at h
        exact List.mem_cons_of_mem _ (ih h)

theorem mem_setState {t : StateTable} {k : String} {s : IndicatorState}
    {kv : String × IndicatorState} (hm : kv ∈ setState t k s) :
    kv = (k, s) ∨ kv ∈ t := by
  induction t with
  | nil => simpa [setState] using hm
  | cons kv0 rest ih =>
      obtain ⟨k0, s0⟩ := kv0
      by_cases h : k0 = k
      · subst h
        simp [setState] at hm
        rcases hm with h1 | h1
        · left; simp [h1]
        · right; exact List.mem_cons_of_mem _ h1
      · simp [setState, h] at hm
        rcases hm with h1 | h1
        · right; simp [h1]
        · rcases ih h1 with h2 | h2
          · left; exact h2
          · right; exact List.mem_cons_of_mem _ h2

/-- The window of the key read by `calculate_ema`/`calculate_sma` is bounded
whenever the invariant holds. -/
theorem windowInv_lookup {p : Nat} {t : StateTable} (hInv : WindowInv p t)
    (k : String) : ((lookupState t k).getD default).values.length ≤ p := by
  cases hl : lookupState t k with
  | none => simp [default_state]
  | some s => exact hInv (k, s) (lookupState_mem hl)

/-! ## Lemmas about the SMA window -/

theorem smaWindow_length (p : Nat) (w : List ℚ) (v : ℚ) :
    (smaWindow p w v).length =
      if p < w.length + 1 then w.length else w.length + 1 := by
  simp only [smaWindow, List.length_append, List.length_cons, List.length_nil]
  split <;> simp [List.length_tail]

theorem smaWindow_length_le {p : Nat} {w : List ℚ} (v : ℚ)
    (hw : w.length ≤ p) : (smaWindow p w v).length ≤ p := by
  rw [smaWindow_length]; split <;> omega

theorem smaWindow_length_min {p m : Nat} {w : List ℚ} (v : ℚ)
    (hw : w.length = min m p) : (smaWindow p w v).length = min (m + 1) p := by
  rw [smaWindow_length]; split <;> omega

theorem smaWindow_eq_append {p : Nat} {w : List ℚ} (v : ℚ)
    (h : w.length < p) : smaWindow p w v = w ++ [v] := by
  unfold smaWindow
  rw [if_neg (show ¬ p < (w ++ [v]).length by
    simp only [List.length_append, List.length_cons, List.length_nil]; omega)]

theorem smaWindow_eq_tail {p : Nat} {w : List ℚ} (v : ℚ) (hp : 1 ≤ p)
    (h : w.length = p) : smaWindow p w v = w.tail ++ [v] := by
  unfold smaWindow
  rw [if_pos (show p < (w ++ [v]).length by
    simp only [List.length_append, List.length_cons, List.length_nil]; omega)]
  cases w with
  | nil => exfalso; simp at h; omega
  | cons a w' => simp

/-! ## Round-trip lemmas for the persistence codec -/

theorem decodeNums_encode (vs : List ℚ) :
    decodeNums (vs.map Json.num) = .ok vs := by
  induction vs with
  | nil => rfl
  | cons v vs ih => simp [decodeNums, ih]

theorem decodeCount_encode (n : Nat) :
    decodeCount (Json.num (n : ℚ)) = .ok n := by
  simp [decodeCount, Rat.den_natCast, Rat.num_natCast]

theorem decodeState_encode (s : IndicatorState) :
    decodeState (encodeState s) = .ok s := by
  obtain ⟨cv, vs, n⟩ := s
  cases cv <;>
    simp [encodeState, decodeState, decodeValue, decodeNums_encode,
      decodeCount_encode]

theorem decodeEntries_encode (t : StateTable) :
    decodeEntries (t.map fun kv => (kv.1, encodeState kv.2)) = .ok t := by
  induction t with
  | nil => rfl
  | cons kv rest ih => simp [decodeEntries, decodeState_encode, ih]

theorem decodeData_encodeData (t : StateTable) :
    decodeData (encodeData t) = .ok t := by
  simp [encodeData, decodeData, decodeEntries_encode]

/-! ## Lemmas about the point field maps -/

theorem lookupAssoc_insertAssoc_self {α : Type} (m : List (String × α))
    (k : String) (a : α) : lookupAssoc (insertAssoc m k a) k = some a := by
  induction m with
  | nil => simp [insertAssoc, lookupAssoc]
  | cons kv rest ih =>
      obtain ⟨k0, a0⟩ := kv
      by_cases h : k0 = k <;> simp [insertAssoc, lookupAssoc, h, ih]

theorem lookupAssoc_insertAssoc_ne {α : Type} (m : List (String × α))
    (k k2 : String) (a : α) (h : k2 ≠ k) :
    lookupAssoc (insertAssoc m k a) k2 = lookupAssoc m k2 := by
  induction m with
  | nil => simp [insertAssoc, lookupAssoc, Ne.symm h]
  | cons kv rest ih =>
      obtain ⟨k0, a0⟩ := kv
      by_cases h0 : k0 = k
      · subst h0
        simp [insertAssoc, lookupAssoc, Ne.symm h]
      · by_cases h2 : k0 = k2 <;> simp [insertAssoc, lookupAssoc, h0, h2, h, ih]

theorem length_insertAssoc_of_absent {α : Type} (m : List (String × α))
    (k : String) (a : α) (h : lookupAssoc m k = none) :
    (insertAssoc m k a).length = m.length + 1 := by
  induction m with
  | nil => rfl
  | cons kv rest ih =>
      obtain ⟨k0, a0⟩ := kv
      by_cases h0 : k0 = k
      · simp [lookupAssoc, h0] at h
      · simp [lookupAssoc, h0] at h
        simp [insertAssoc, h0, ih h]

/-! ## The effect of one computation step on the key's entry -/

theorem calculate_sma_post (opts : IndicatorOptions) (t : StateTable)
    (k : String) (v : ℚ) :
    (lookupState (calculate_sma opts t k v).2 k).getD default =
      { (lookupState t k).getD default with
        values :=
          smaWindow opts.period ((lookupState t k).getD default).values v,
        count := ((lookupState t k).getD default).count + 1 } := by
  simp only [calculate_sma, lookupState_setState_self, Option.getD_some]

theorem calculate_sma_out (opts : IndicatorOptions) (t : StateTable)
    (k : String) (v : ℚ) :
    (calculate_sma opts t k v).1 =
      smaOut opts.period
        (smaWindow opts.period ((lookupState t k).getD default).values v) v :=
  rfl

theorem calculate_ema_post (opts : IndicatorOptions) (t : StateTable)
    (k : String) (v : ℚ) :
    (lookupState (calculate_ema opts t k v).2 k).getD default =
      { (lookupState t k).getD default with
        current_value :=
          some (emaNext opts.period
            ((lookupState t k).getD default).current_value v),
        count := ((lookupState t k).getD default).count + 1 } := by
  simp only [calculate_ema, lookupState_setState_self, Option.getD_some]

theorem calculate_ema_out (opts : IndicatorOptions) (t : StateTable)
    (k : String) (v : ℚ) :
    (calculate_ema opts t k v).1 =
      emaNext opts.period ((lookupState t k).getD default).current_value v :=
  rfl

/-! ## Preservation of the window-bound invariant -/

theorem windowInv_calculate_ema (opts : IndicatorOptions) (t : StateTable)
    (k : String) (v : ℚ) (hInv : WindowInv opts.period t) :
    WindowInv opts.period (calculate_ema opts t k v).2 := by
  intro kv hm
  simp only [calculate_ema] at hm
  rcases mem_setState hm with rfl | h1
  · exact windowInv_lookup hInv k
  · exact hInv kv h1

theorem windowInv_calculate_sma (opts : IndicatorOptions) (t : StateTable)
    (k : String) (v : ℚ) (hInv : WindowInv opts.period t) :
    WindowInv opts.period (calculate_sma opts t k v).2 := by
  intro kv hm
  simp only [calculate_sma] at hm
  rcases mem_setState hm with rfl | h1
  · exact smaWindow_length_le v (windowInv_lookup hInv k)
  · exact hInv kv h1

theorem windowInv_calculate_indicator (opts : IndicatorOptions)
    (t : StateTable) (k : String) (v : ℚ) (hInv : WindowInv opts.period t) :
    WindowInv opts.period (calculate_indicator opts t k v).2 := by
  cases hty : opts.indicator_type
  · simp only [calculate_indicator, hty]
    exact windowInv_calculate_ema opts t k v hInv
  · simp only [calculate_indicator, hty]
    exact windowInv_calculate_sma opts t k v hInv

/-- After a sequence of SMA observations the window length is the minimum of
the (generalized) observation count and the period. -/
theorem smaFold_window_length (opts : IndicatorOptions) (k : String)
    (vs : List ℚ) : ∀ (t : StateTable) (m : Nat),
    ((lookupState t k).getD default).values.length = min m opts.period →
    ((lookupState (smaFold opts t k vs) k).getD default).values.length =
      min (m + vs.length) opts.period := by
  induction vs with
  | nil => intro t m hm; simpa [smaFold] using hm
  | cons v vs ih =>
      intro t m hm
      have hstep : ((lookupState (calculate_sma opts t k v).2 k).getD
          default).values.length = min (m + 1) opts.period := by
        rw [calculate_sma_post]
        exact smaWindow_length_min v hm
      have h2 := ih (calculate_sma opts t k v).2 (m + 1) hstep
      have harith : m + (v :: vs).length = m + 1 + vs.length := by
        simp only [List.length_cons]; omega
      simp only [smaFold]
      rw [harith]
      exact h2

/-- A sample one-key state table with a seeded EMA accumulator. -/
def emaSampleTable : StateTable :=
  [("X", { current_value := some 4, values := [], count := 1 })]

/-! ## The claims -/

/-- **C1.** SMA computation: for every configured key and period `p ≥ 1`
(window previously within bound), each observation is appended to the key's
sliding window with the oldest entry evicted once the window exceeds `p`
entries; the returned output equals the raw input value while the window
holds fewer than `p` entries, and equals the arithmetic mean of the window
once it holds exactly `p` entries. In particular, with period 3 on one key,
inputs 1, 2, 3, 4 yield outputs 1, 2, 2, 3. -/
theorem sma_computation_correct (opts : IndicatorOptions) (t : StateTable)
    (k : String) (v : ℚ) (hp : 1 ≤ opts.period)
    (hw : ((lookupState t k).getD default).values.length ≤ opts.period) :
    (((lookupState t k).getD default).values.length < opts.period →
      ((lookupState (calculate_sma opts t k v).2 k).getD default).values =
        ((lookupState t k).getD default).values ++ [v]) ∧
    (((lookupState t k).getD default).values.length = opts.period →
      ((lookupState (calculate_sma opts t k v).2 k).getD default).values =
        ((lookupState t k).getD default).values.tail ++ [v]) ∧
    (((lookupState (calculate_sma opts t k v).2 k).getD
        default).values.length < opts.period →
      (calculate_sma opts t k v).1 = v) ∧
    (((lookupState (calculate_sma opts t k v).2 k).getD
        default).values.length = opts.period →
      (calculate_sma opts t k v).1 =
        ((lookupState (calculate_sma opts t k v).2 k).getD
          default).values.sum / (opts.period : ℚ)) ∧
    smaOutputs (smaOpts 3) [] "X" [1, 2, 3, 4] = [1, 2, 2, 3] := by
  refine ⟨?_, ?_, ?_, ?_, ?_⟩
  · intro hlt
    rw [calculate_sma_post]
    exact smaWindow_eq_append v hlt
  · intro heq
    rw [calculate_sma_post]
    exact smaWindow_eq_tail v hp heq
  · intro hlt
    have hlt2 : (smaWindow opts.period
        ((lookupState t k).getD default).values v).length < opts.period := by
      simpa [calculate_sma_post] using hlt
    rw [calculate_sma_out]
    unfold smaOut
    rw [if_neg (Nat.ne_of_lt hlt2)]
  · intro heq
    have heq2 : (smaWindow opts.period
        ((lookupState t k).getD default).values v).length = opts.period := by
      simpa [calculate_sma_post] using heq
    rw [calculate_sma_out]
    unfold smaOut
    rw [if_pos heq2, calculate_sma_post]
  · norm_num [smaOutputs, calculate_sma, smaWindow, smaOut, lookupState,
      setState, smaOpts, default_state]

/-- Witness for C1 at period 3, the empty table, key `"X"`: the hypotheses
hold and the concrete run 1, 2, 3, 4 produces 1, 2, 2, 3. -/
theorem sma_computation_correct_witness :
    1 ≤ (smaOpts 3).period ∧
    ((lookupState ([] : StateTable) "X").getD default).values.length ≤
      (smaOpts 3).period ∧
    smaOutputs (smaOpts 3) [] "X" [1, 2, 3, 4] = [1, 2, 2, 3] :=
  ⟨by decide, by decide,
    (sma_computation_correct (smaOpts 3) [] "X" 0 (by decide)
      (by decide)).2.2.2.2⟩

/-- **C2.** EMA computation: for every configured key and period `p ≥ 1`, the
first observation `v` for a fresh key (`current_value` absent) returns
exactly `v`; every later observation `v` returns `α·v + (1−α)·e` where `e`
is the key's previous value and `α = 2/(p+1)`; the result is stored as the
key's new `current_value`. -/
theorem ema_computation_correct (opts : IndicatorOptions) (t : StateTable)
    (k : String) (v : ℚ) (hp : 1 ≤ opts.period) :
    (((lookupState t k).getD default).current_value = none →
      (calculate_ema opts t k v).1 = v) ∧
    (∀ e, ((lookupState t k).getD default).current_value = some e →
      (calculate_ema opts t k v).1 =
        (2 / ((opts.period : ℚ) + 1)) * v +
          (1 - 2 / ((opts.period : ℚ) + 1)) * e) ∧
    ((lookupState (calculate_ema opts t k v).2 k).getD
        default).current_value = some (calculate_ema opts t k v).1 := by
  refine ⟨?_, ?_, ?_⟩
  · intro h0
    rw [calculate_ema_out, h0]
    rfl
  · intro e he
    rw [calculate_ema_out, he]
    rfl
  · rw [calculate_ema_post, calculate_ema_out]

/-- Witness for C2 at period 3 on a table whose key `"X"` holds EMA value 4:
observation 8 yields `α·8 + (1−α)·4` with `α = 2/4`. -/
theorem ema_computation_correct_witness :
    1 ≤ (emaOpts 3).period ∧
    ((lookupState emaSampleTable "X").getD default).current_value = some 4 ∧
    (calculate_ema (emaOpts 3) emaSampleTable "X" 8).1 =
      (2 / (((emaOpts 3).period : ℚ) + 1)) * 8 +
        (1 - 2 / (((emaOpts 3).period : ℚ) + 1)) * 4 :=
  ⟨by decide, by decide,
    (ema_computation_correct (emaOpts 3) emaSampleTable "X" 8
      (by decide)).2.1 4 (by decide)⟩

/-- **C3.** Persistence round-trip: decoding the snapshot encoding of any
state table yields exactly that table; `restore(snapshot())` succeeds,
reproduces the handler unchanged, and every subsequent input yields the
identical outcome to continuing without the round-trip. -/
theorem persistence_round_trip (t : StateTable) (h : IndicatorHandler)
    (q : Point) :
    decodeData (encodeData t) = Except.ok t ∧
    restoreHandler h (snapshotHandler h) =
      (h, { success := true, error := "" }) ∧
    pointHandler (restoreHandler h (snapshotHandler h)).1 q =
      pointHandler h q := by
  have h2 : restoreHandler h (snapshotHandler h) =
      (h, { success := true, error := "" }) := by
    obtain ⟨o, st, c, em⟩ := h
    simp [restoreHandler, snapshotHandler, decodeData_encodeData]
  exact ⟨decodeData_encodeData t, h2, by rw [h2]⟩

/-- **C4 counterexample.** The window-bound invariant is not preserved by
every public operation: snapshot three observations under period 3,
reconfigure to period 1 (success clears the table), then restore the
snapshot — restore reports success and installs a window of length 3 under
period 1. -/
theorem window_bound_not_preserved_by_restore :
    restoredAfterReconfig.2.success = true ∧
    restoredAfterReconfig.1.options.period = 1 ∧
    ((lookupState restoredAfterReconfig.1.states "X").getD
      default).values.length = 3 := by
  decide

/-- **C4 (amended).** For every key in the state table,
`values.length ≤ period` is preserved by ingest, configure,
restore-of-snapshot, stop, and by restore of any blob that decodes to a
table satisfying the bound (restore installs an arbitrary decodable blob
verbatim, so the bound survives only when the decoded table satisfies it,
as the counterexample shows it need not); and after `n` SMA observations
folded into a key since its creation, `values.length = min(n, period)`. -/
theorem window_bound_invariant (h : IndicatorHandler) (q : Point)
    (r : RawOptions) (blob : Json) (d : StateTable) (k : String)
    (vs : List ℚ) :
    (WindowInv h.options.period h.states →
      WindowInv (pointHandler h q).1.options.period
        (pointHandler h q).1.states) ∧
    (WindowInv h.options.period h.states →
      WindowInv (initHandler h r).1.options.period
        (initHandler h r).1.states) ∧
    (WindowInv h.options.period h.states →
      WindowInv (restoreHandler h (snapshotHandler h)).1.options.period
        (restoreHandler h (snapshotHandler h)).1.states) ∧
    (decodeData blob = .ok d → WindowInv h.options.period d →
      WindowInv (restoreHandler h blob).1.options.period
        (restoreHandler h blob).1.states) ∧
    (WindowInv h.options.period h.states →
      WindowInv (stopHandler h).options.period (stopHandler h).states) ∧
    (lookupState h.states k = none →
      ((lookupState (smaFold h.options h.states k vs) k).getD
        default).values.length = min vs.length h.options.period) := by
  refine ⟨?_, ?_, ?_, ?_, ?_, ?_⟩
  · intro hInv
    cases hlt : lookupAssoc q.tags h.options.ticker_field with
    | none => simp only [pointHandler, hlt]; exact hInv
    | some ticker =>
      cases hlf : lookupAssoc q.fields_double h.options.field with
      | none => simp only [pointHandler, hlt, hlf]; exact hInv
      | some v =>
        have hcalc :=
          windowInv_calculate_indicator h.options h.states ticker v hInv
        by_cases hc : h.channelOpen <;>
          simp only [pointHandler, hlt, hlf, hc, if_true, if_false] <;>
          exact hcalc
  · intro hInv
    cases hro : from_proto_options r with
    | ok o =>
        simp only [initHandler, hro]
        intro kv hm
        simp at hm
    | error e => simp only [initHandler, hro]; exact hInv
  · intro hInv
    simp only [restoreHandler, snapshotHandler, decodeData_encodeData]
    exact hInv
  · intro hdec hInvd
    simp only [restoreHandler, hdec]
    exact hInvd
  · intro hInv
    exact hInv
  · intro hnone
    have h0 : ((lookupState h.states k).getD default).values.length =
        min 0 h.options.period := by simp [hnone, default_state]
    simpa using smaFold_window_length h.options k vs h.states 0 h0

/-- Witness for the amended C4: concrete preservation through ingest and
restore, and the `min` law for two observations under period 3. -/
theorem window_bound_invariant_witness :
    WindowInv (freshHandler (smaOpts 3)).options.period
      (freshHandler (smaOpts 3)).states ∧
    decodeData (encodeData emaSampleTable) = Except.ok emaSampleTable ∧
    WindowInv (freshHandler (smaOpts 3)).options.period emaSampleTable ∧
    lookupState (freshHandler (smaOpts 3)).states "X" = none ∧
    WindowInv (pointHandler (freshHandler (smaOpts 3))
        (mkPoint "X" 1)).1.options.period
      (pointHandler (freshHandler (smaOpts 3)) (mkPoint "X" 1)).1.states ∧
    WindowInv (restoreHandler (freshHandler (smaOpts 3))
        (encodeData emaSampleTable)).1.options.period
      (restoreHandler (freshHandler (smaOpts 3))
        (encodeData emaSampleTable)).1.states ∧
    ((lookupState (smaFold (freshHandler (smaOpts 3)).options
        (freshHandler (smaOpts 3)).states "X" [1, 2]) "X").getD
      default).values.length =
      min ([1, 2] : List ℚ).length (freshHandler (smaOpts 3)).options.period :=
  ⟨by decide, rfl, by decide, by decide,
   (window_bound_invariant (freshHandler (smaOpts 3)) (mkPoint "X" 1)
      rawSma3 (encodeData emaSampleTable) emaSampleTable "X" [1, 2]).1
     (by decide),
   (window_bound_invariant (freshHandler (smaOpts 3)) (mkPoint "X" 1)
      rawSma3 (encodeData emaSampleTable) emaSampleTable "X" [1, 2]).2.2.2.1
     rfl (by decide),
   (window_bound_invariant (freshHandler (smaOpts 3)) (mkPoint "X" 1)
      rawSma3 (encodeData emaSampleTable) emaSampleTable "X" [1, 2]).2.2.2.2.2
     (by decide)⟩

/-- **C5.** Restore is all-or-nothing: a blob that fails to decode leaves the
state table untouched and surfaces the failure reason; a blob that decodes
replaces the entire state table wholesale. -/
theorem restore_all_or_nothing (h : IndicatorHandler) (blob : Json)
    (d : StateTable) (e : String) :
    (decodeData blob = .error e →
      restoreHandler h blob = (h, { success := false, error := e })) ∧
    (decodeData blob = .ok d →
      restoreHandler h blob =
        ({ h with states := d }, { success := true, error := "" })) := by
  constructor
  · intro hd; simp [restoreHandler, hd]
  · intro hd; simp [restoreHandler, hd]

/-- Witness for C5: a malformed blob (`null`) fails and leaves the handler
unchanged; a well-formed blob replaces the state table. -/
theorem restore_all_or_nothing_witness :
    decodeData Json.null = Except.error "invalid data" ∧
    restoreHandler (freshHandler (smaOpts 3)) Json.null =
      (freshHandler (smaOpts 3),
        { success := false, error := "invalid data" }) ∧
    decodeData (encodeData emaSampleTable) = Except.ok emaSampleTable ∧
    restoreHandler (freshHandler (emaOpts 3)) (encodeData emaSampleTable) =
      ({ freshHandler (emaOpts 3) with states := emaSampleTable },
        { success := true, error := "" }) :=
  ⟨rfl,
   (restore_all_or_nothing (freshHandler (smaOpts 3)) Json.null []
      "invalid data").1 rfl,
   rfl,
   (restore_all_or_nothing (freshHandler (emaOpts 3))
      (encodeData emaSampleTable) emaSampleTable "").2 rfl⟩

/-- **C6.** Configure contract: only when validation succeeds are the new
options swapped in and the state table cleared (every previously tracked key
afterwards reads as absent, i.e. cold start); on validation failure the
options and the state table are unchanged and the reason is returned. -/
theorem configure_contract (h : IndicatorHandler) (r : RawOptions)
    (o : IndicatorOptions) (e : String) :
    (from_proto_options r = .ok o →
      initHandler h r =
        ({ h with options := o, states := [] },
          { success := true, error := "" })) ∧
    (from_proto_options r = .ok o →
      ∀ k2, lookupState (initHandler h r).1.states k2 = none) ∧
    (from_proto_options r = .error e →
      initHandler h r = (h, { success := false, error := e })) := by
  refine ⟨?_, ?_, ?_⟩
  · intro hr; simp [initHandler, hr]
  · intro hr k2; simp [initHandler, hr, lookupState]
  · intro hr; simp [initHandler, hr]

/-- Witness for C6: a valid raw configuration reconfigures `sampleHandler3`
and clears its table; period 0 is rejected and changes nothing. -/
theorem configure_contract_witness :
    from_proto_options rawSma3 = Except.ok (smaOpts 3) ∧
    initHandler sampleHandler3 rawSma3 =
      ({ sampleHandler3 with options := smaOpts 3, states := [] },
        { success := true, error := "" }) ∧
    lookupState (initHandler sampleHandler3 rawSma3).1.states "X" = none ∧
    from_proto_options rawBadPeriod =
      Except.error "period must be a positive integer" ∧
    initHandler sampleHandler3 rawBadPeriod =
      (sampleHandler3,
        { success := false, error := "period must be a positive integer" }) :=
  ⟨rfl,
   (configure_contract sampleHandler3 rawSma3 (smaOpts 3) "").1 rfl,
   (configure_contract sampleHandler3 rawSma3 (smaOpts 3) "").2.1 rfl "X",
   rfl,
   (configure_contract sampleHandler3 rawBadPeriod (smaOpts 3)
      "period must be a positive integer").2.2 rfl⟩

/-- **C7.** Per-record validation isolation: a record lacking the configured
ticker tag fails with the missing-key condition; a record whose configured
numeric field is absent fails with the invalid-field-type condition; in both
cases the handler (state table included) is returned unchanged. -/
theorem point_validation_isolation (h : IndicatorHandler) (p : Point) :
    (lookupAssoc p.tags h.options.ticker_field = none →
      pointHandler h p =
        (h, .error (.MissingTickerField h.options.ticker_field))) ∧
    (∀ ticker, lookupAssoc p.tags h.options.ticker_field = some ticker →
      lookupAssoc p.fields_double h.options.field = none →
      pointHandler h p = (h, .error (.InvalidFieldType h.options.field))) := by
  constructor
  · intro ht; simp [pointHandler, ht]
  · intro ticker ht hf; simp [pointHandler, ht, hf]

/-- Witness for C7: a record without the `"t"` tag is rejected as missing
ticker; a record without the `"price"` field is rejected as invalid field
type; the handler is unchanged in both cases. -/
theorem point_validation_isolation_witness :
    lookupAssoc noTagPoint.tags (smaOpts 3).ticker_field = none ∧
    pointHandler (freshHandler (smaOpts 3)) noTagPoint =
      (freshHandler (smaOpts 3),
        .error (.MissingTickerField "t")) ∧
    lookupAssoc noFieldPoint.tags (smaOpts 3).ticker_field = some "X" ∧
    lookupAssoc noFieldPoint.fields_double (smaOpts 3).field = none ∧
    pointHandler (freshHandler (smaOpts 3)) noFieldPoint =
      (freshHandler (smaOpts 3), .error (.InvalidFieldType "price")) :=
  ⟨rfl,
   (point_validation_isolation (freshHandler (smaOpts 3)) noTagPoint).1 rfl,
   rfl, rfl,
   (point_validation_isolation (freshHandler (smaOpts 3)) noFieldPoint).2
     "X" rfl rfl⟩

/-- **C8 counterexample.** After `stop()` (which only closes the response
channel) the handler still accepts restore: restore of a valid blob reports
success and replaces the state table, so not every post-stop operation fails
or is a no-op. -/
theorem stop_not_terminal :
    (restoreHandler (stopHandler (freshHandler (smaOpts 1)))
      (encodeData emaSampleTable)).2.success = true ∧
    (restoreHandler (stopHandler (freshHandler (smaOpts 1)))
      (encodeData emaSampleTable)).1.states = emaSampleTable ∧
    (stopHandler (freshHandler (smaOpts 1))).states = [] := by
  decide

/-- **C8 (amended).** `stop()` closes the outbound channel and nothing else:
afterwards every ingest fails (the send on the closed channel errors, so it
never reports success), while `snapshot`, `restore` and `configure` are not
gated by stop at all — they behave exactly as on the un-stopped handler (and
can in particular still succeed and take effect). -/
theorem stop_closes_channel_only (h : IndicatorHandler) (q : Point)
    (r : RawOptions) (blob : Json) :
    exceptIsOk (pointHandler (stopHandler h) q).2 = false ∧
    snapshotHandler (stopHandler h) = snapshotHandler h ∧
    restoreHandler (stopHandler h) blob =
      (stopHandler (restoreHandler h blob).1, (restoreHandler h blob).2) ∧
    initHandler (stopHandler h) r =
      (stopHandler (initHandler h r).1, (initHandler h r).2) := by
  refine ⟨?_, rfl, ?_, ?_⟩
  · cases hlt : lookupAssoc q.tags h.options.ticker_field with
    | none => simp [pointHandler, stopHandler, hlt, exceptIsOk]
    | some ticker =>
      cases hlf : lookupAssoc q.fields_double h.options.field with
      | none => simp [pointHandler, stopHandler, hlt, hlf, exceptIsOk]
      | some v => simp [pointHandler, stopHandler, hlt, hlf, exceptIsOk]
  · cases hd : decodeData blob <;> simp [restoreHandler, stopHandler, hd]
  · cases hr : from_proto_options r <;> simp [initHandler, stopHandler, hr]

/-- **C9 counterexample.** With `as_field` naming an existing numeric field
(`as_field = field = "price"`), a successful ingest emits a record identical
to the input: no additional field is added (the existing entry is
overwritten with the computed value, which on a cold start equals the
input), refuting "input record plus exactly one additional numeric field". -/
theorem output_frame_counterexample :
    exceptIsOk (pointHandler (freshHandler collideOpts)
      (mkPoint "X" 1)).2 = true ∧
    (pointHandler (freshHandler collideOpts) (mkPoint "X" 1)).1.emitted =
      [mkPoint "X" 1] ∧
    (mkPoint "X" 1).fields_double.length = 1 := by
  decide

/-- **C9 (amended).** For every successfully ingested record the emitted
record is the input with the computed indicator value inserted under
`as_field` into its numeric-field map: when `as_field` is not already
present this adds exactly one numeric field; when it collides with an
existing numeric field the entry is overwritten in place. Tags, timestamp,
name, group and the non-double field maps are unchanged in all cases, and
every numeric field other than `as_field` keeps its value. -/
theorem output_frame (h : IndicatorHandler) (p : Point) (ticker : String)
    (v : ℚ) (hopen : h.channelOpen = true)
    (ht : lookupAssoc p.tags h.options.ticker_field = some ticker)
    (hv : lookupAssoc p.fields_double h.options.field = some v) :
    (pointHandler h p).2 = .ok () ∧
    (pointHandler h p).1.emitted = h.emitted ++
      [augmentedPoint h p
        (calculate_indicator h.options h.states ticker v).1] ∧
    ∀ iv : ℚ,
      (augmentedPoint h p iv).tags = p.tags ∧
      (augmentedPoint h p iv).time = p.time ∧
      (augmentedPoint h p iv).name = p.name ∧
      (augmentedPoint h p iv).group = p.group ∧
      (augmentedPoint h p iv).fields_int = p.fields_int ∧
      (augmentedPoint h p iv).fields_string = p.fields_string ∧
      lookupAssoc (augmentedPoint h p iv).fields_double
        h.options.as_field = some iv ∧
      (∀ k2, k2 ≠ h.options.as_field →
        lookupAssoc (augmentedPoint h p iv).fields_double k2 =
          lookupAssoc p.fields_double k2) ∧
      (lookupAssoc p.fields_double h.options.as_field = none →
        (augmentedPoint h p iv).fields_double.length =
          p.fields_double.length + 1) := by
  refine ⟨?_, ?_, ?_⟩
  · simp [pointHandler, ht, hv, hopen]
  · simp [pointHandler, ht, hv, hopen]
  · intro iv
    refine ⟨rfl, rfl, rfl, rfl, rfl, rfl, ?_, ?_, ?_⟩
    · exact lookupAssoc_insertAssoc_self p.fields_double h.options.as_field iv
    · intro k2 hk2
      exact lookupAssoc_insertAssoc_ne p.fields_double h.options.as_field
        k2 iv hk2
    · intro habs
      exact length_insertAssoc_of_absent p.fields_double h.options.as_field
        iv habs

/-- Witness for the amended C9: ingesting `price = 1` for ticker `"X"` on a
fresh period-3 SMA handler succeeds, emits the record augmented under
`"sma"`, and adds exactly one numeric field. -/
theorem output_frame_witness :
    (freshHandler (smaOpts 3)).channelOpen = true ∧
    lookupAssoc (mkPoint "X" 1).tags (smaOpts 3).ticker_field = some "X" ∧
    lookupAssoc (mkPoint "X" 1).fields_double (smaOpts 3).field = some 1 ∧
    (pointHandler (freshHandler (smaOpts 3)) (mkPoint "X" 1)).2 =
      .ok () :=
  ⟨rfl, rfl, rfl,
   (output_frame (freshHandler (smaOpts 3)) (mkPoint "X" 1) "X" 1
      rfl rfl rfl).1⟩

/-- **C10.** Per-path state frame: the EMA path leaves the key's `values`
sequence unchanged and the SMA path leaves the key's `current_value`
unchanged (each stays at its default — empty list resp. `none` — for a key
only ever processed by that path), and each path increments the key's
`count` by exactly one. -/
theorem per_path_state_frame (opts : IndicatorOptions) (t : StateTable)
    (k : String) (v : ℚ) :
    ((lookupState (calculate_ema opts t k v).2 k).getD default).values =
      ((lookupState t k).getD default).values ∧
    ((lookupState (calculate_ema opts t k v).2 k).getD default).count =
      ((lookupState t k).getD default).count + 1 ∧
    ((lookupState (calculate_sma opts t k v).2 k).getD
        default).current_value =
      ((lookupState t k).getD default).current_value ∧
    ((lookupState (calculate_sma opts t k v).2 k).getD default).count =
      ((lookupState t k).getD default).count + 1 ∧
    (lookupState t k = none →
      ((lookupState (calculate_ema opts t k v).2 k).getD
          default).values = [] ∧
      ((lookupState (calculate_sma opts t k v).2 k).getD
          default).current_value = none) := by
  refine ⟨?_, ?_, ?_, ?_, ?_⟩
  · rw [calculate_ema_post]
  · rw [calculate_ema_post]
  · rw [calculate_sma_post]
  · rw [calculate_sma_post]
  · intro hn
    constructor
    · rw [calculate_ema_post, hn]
      rfl
    · rw [calculate_sma_post, hn]
      rfl

/-- Witness for C10 on the empty table: after a single EMA step the window
stays empty, after a single SMA step the accumulator stays absent. -/
theorem per_path_state_frame_witness :
    lookupState ([] : StateTable) "X" = none ∧
    ((lookupState (calculate_ema (emaOpts 3) [] "X" 5).2 "X").getD
      default).values = [] ∧
    ((lookupState (calculate_sma (smaOpts 3) [] "X" 5).2 "X").getD
      default).current_value = none :=
  ⟨rfl,
   ((per_path_state_frame (emaOpts 3) [] "X" 5).2.2.2.2 rfl).1,
   ((per_path_state_frame (smaOpts 3) [] "X" 5).2.2.2.2 rfl).2⟩

end IndicatorUDF
